import Mathlib

set_option maxRecDepth 4096

/-!
Verification of the device-info-collector ingestion gate.

This file shallowly embeds the algorithmic core of `main.go`:

* the sliding-window rate limiter (`RateLimiter`, `Allow`, lines 92-124),
* the client-key resolution (`getClientIP`, lines 127-139, together with a
  model of Go's `net.SplitHostPort`),
* the record finalization performed by `collectHandler` (lines 197-199,
  together with a model of Go's `time.Format` for layout
  `2006-01-02 15:04:05`),
* the client-side fingerprint reduction `hashString` (lines 1014-1025 of the
  embedded page script; JavaScript semantics: UTF-16 code units, 32-bit
  signed wrap-around via `x & x`, unbounded `Math.abs`, `toString(16)`).

Time is modelled in nanoseconds (`Int`), matching Go's `time.Duration`;
`now.Sub(req) < time.Minute` becomes `now - req < minuteNs`.
-/

namespace DeviceCollector

/-! ## Rate limiter (src/main.go lines 92-124) -/

/-- `time.Minute` in nanoseconds. -/
def minuteNs : Int := 60000000000

/-- The `requests map[string][]time.Time` field of `RateLimiter`; a missing
key reads as the empty slice, as in Go. -/
def RateLimiter := String → List Int

/-- The initial limiter state: `make(map[string][]time.Time)`. -/
def initLimiter : RateLimiter := fun _ => []

/-- The pruning loop of `Allow` (lines 110-115): keep exactly the requests
with `now.Sub(req) < time.Minute`. -/
def prune (now : Int) (requests : List Int) : List Int :=
  requests.filter (fun req => decide (now - req < minuteNs))

/-- `func (rl *RateLimiter) Allow(ip string) bool`, lines 102-124.
Returns the boolean decision together with the post-call `requests` map:
on denial the map is returned unchanged (the code returns before the
`rl.requests[ip] = validRequests` write); on admission the pruned list with
`now` appended is stored under `ip`. -/
def Allow (rl : RateLimiter) (ip : String) (now : Int) : Bool × RateLimiter :=
  let validRequests := prune now (rl ip)
  if validRequests.length ≥ 30 then
    (false, rl)
  else
    (true, fun k => if k = ip then validRequests ++ [now] else rl k)

/-- Run a sequence of `Allow` calls (key, time) from a given state. -/
def runRL (rl : RateLimiter) : List (String × Int) → RateLimiter
  | [] => rl
  | c :: rest => runRL (Allow rl c.1 c.2).2 rest

/-- A limiter state reachable from the initial state by some call sequence. -/
def Reachable (rl : RateLimiter) : Prop :=
  ∃ calls : List (String × Int), rl = runRL initLimiter calls

/-- Number of admitted (`true`) calls for key `k` whose call time lies in the
trailing window `(T - minuteNs, T]`, along a run of `Allow` calls. -/
def admittedInWindow (rl : RateLimiter) (k : String) (T : Int) :
    List (String × Int) → Nat
  | [] => 0
  | c :: rest =>
    let r := Allow rl c.1 c.2
    (if c.1 = k ∧ T - minuteNs < c.2 ∧ c.2 ≤ T ∧ r.1 = true then 1 else 0) +
      admittedInWindow r.2 k T rest

/-- Number of stored timestamps lying in the trailing window `(T - minuteNs, T]`. -/
def inWindowCount (T : Int) (l : List Int) : Nat :=
  (l.filter (fun s => decide (T - minuteNs < s) && decide (s ≤ T))).length

/-! ## Fingerprint reducer (`hashString`, src/main.go lines 1014-1025) -/

/-- JavaScript `ToInt32`: reduce an integer to the 32-bit two's-complement
range `[-2^31, 2^31)`. -/
def toInt32 (n : Int) : Int :=
  let m := n % 4294967296
  if m < 2147483648 then m else m - 4294967296

/-- One loop iteration of `hashString`:
`hash = ((hash << 5) - hash) + char; hash = hash & hash`.
The `<<` operator itself works on (and truncates to) 32 bits, the
subtraction and addition are exact, and `hash & hash` truncates again. -/
def hashStep (hash : Int) (c : Nat) : Int :=
  toInt32 (toInt32 (hash * 32) - hash + c)

/-- The UTF-16 code units of a string, in order — what JavaScript's
`str.charCodeAt(i)` iterates over. -/
def utf16CodeUnits (s : String) : List Nat :=
  s.toList.foldr
    (fun c acc =>
      if c.toNat < 65536 then c.toNat :: acc
      else (55296 + (c.toNat - 65536) / 1024) :: (56320 + (c.toNat - 65536) % 1024) :: acc)
    []

/-- Lowercase hexadecimal digit for `0 ≤ n ≤ 15`. -/
def hexDigit (n : Nat) : Char :=
  if n < 10 then Char.ofNat (48 + n) else Char.ofNat (87 + n)

/-- Digits of `n` in base 16, most significant first; empty for `0`.
Structural recursion on a fuel bound of `n` itself (the digit count is at
most `n`), so that the kernel can evaluate it. -/
def hexDigitsAux : Nat → Nat → List Char
  | 0, _ => []
  | fuel + 1, n => if n = 0 then [] else hexDigitsAux fuel (n / 16) ++ [hexDigit (n % 16)]

/-- Digits of `n` in base 16, most significant first; empty for `0`. -/
def hexDigits (n : Nat) : List Char := hexDigitsAux n n

/-- JavaScript `Number.prototype.toString(16)` for a non-negative integer:
lowercase hexadecimal with no leading zeros, `"0"` for zero. -/
def toHexLower (n : Nat) : String :=
  if n = 0 then "0" else ⟨hexDigits n⟩

/-- The final accumulator value of `hashString` on input `s`. -/
def hashFinal (s : String) : Int :=
  (utf16CodeUnits s).foldl hashStep 0

/-- `function hashString(str)` from the embedded page script
(src/main.go lines 1014-1025): the empty string short-circuits to
`hash.toString()` with `hash = 0`; otherwise the 32-bit accumulator loop
runs and `Math.abs(hash).toString(16)` is returned. -/
def hashString (s : String) : String :=
  if utf16CodeUnits s = [] then "0"
  else toHexLower (hashFinal s).natAbs

/-- The reduction algorithm as the specification words it: a 32-bit signed
accumulator starting at zero, updated per character code by
`acc = (acc << 5) - acc + c` with a single two's-complement 32-bit
truncation after each step, rendered as the absolute value in lowercase
hexadecimal; empty input gives `"0"`. -/
def reduceSpec (s : String) : String :=
  let units := utf16CodeUnits s
  if units = [] then "0"
  else toHexLower ((units.foldl (fun acc (c : Nat) => toInt32 (acc * 32 - acc + c)) 0).natAbs)

/-- Well-formedness of a rendered digest: non-empty, only lowercase
hexadecimal digits (in particular no sign character), and no leading zero
except for the digest `"0"` itself. -/
def isLowerHexNoSign (str : String) : Bool :=
  decide (str ≠ "") &&
  str.toList.all (fun c => c.isDigit || (decide ('a' ≤ c) && decide (c ≤ 'f'))) &&
  (decide (str = "0") || decide (str.toList.headD '0' ≠ '0'))

/-! ## Client key resolution (`getClientIP`, src/main.go lines 127-139) -/

/-- Index of the last occurrence of `c` in `s`, as in the `last` helper used
by Go's `net.SplitHostPort`. -/
def lastIndexOf (s : List Char) (c : Char) : Option Nat :=
  match s with
  | [] => none
  | a :: rest =>
    match lastIndexOf rest c with
    | some i => some (i + 1)
    | none => if a = c then some 0 else none

/-- Model of Go's `net.SplitHostPort`: `some (host, port)` on success,
`none` when the address cannot be split (Go returns an error). The port
starts after the last colon; a leading `[` introduces a bracketed host whose
closing `]` must sit immediately before that colon; stray brackets or extra
colons in an unbracketed host are errors. -/
def splitHostPort (hostPort : String) : Option (String × String) :=
  let s := hostPort.toList
  match lastIndexOf s ':' with
  | none => none
  | some i =>
    let finish (j k : Nat) (host : List Char) : Option (String × String) :=
      if (s.drop j).contains '[' then none
      else if (s.drop k).contains ']' then none
      else some (⟨host⟩, ⟨s.drop (i + 1)⟩)
    if s.headD ' ' = '[' then
      match List.findIdx? (fun c => c = ']') s with
      | none => none
      | some e =>
        if e + 1 = s.length then none
        else if e + 1 = i then finish 1 (e + 1) ((s.take e).drop 1)
        else none
    else
      let host := s.take i
      if host.contains ':' then none
      else finish 0 0 host

/-- Model of Go's `strings.Split` for a one-character separator: the
substrings between occurrences of `sep`, so that splitting the empty string
yields `[[]]` and a trailing separator yields a trailing empty entry. -/
def splitChar (sep : Char) : List Char → List (List Char)
  | [] => [[]]
  | c :: rest =>
    let r := splitChar sep rest
    if c = sep then [] :: r
    else (c :: r.headD []) :: r.tail

/-- The request data `getClientIP` consumes: the two proxy headers (empty
string when absent, as returned by Go's `Header.Get`) and the transport
peer address `r.RemoteAddr`. -/
structure HttpRequest where
  xForwardedFor : String
  xRealIP : String
  remoteAddr : String

/-- `func getClientIP(r *http.Request) string`, lines 127-139: prefer the
first comma-separated entry of `X-Forwarded-For`, then `X-Real-IP`, then
`RemoteAddr` with the port stripped (the raw `RemoteAddr` when
`net.SplitHostPort` fails). -/
def getClientIP (r : HttpRequest) : String :=
  if r.xForwardedFor ≠ "" then ⟨(splitChar ',' r.xForwardedFor.toList).headD []⟩
  else if r.xRealIP ≠ "" then r.xRealIP
  else
    match splitHostPort r.remoteAddr with
    | some hp => hp.1
    | none => r.remoteAddr

/-! ## Telemetry record finalization (`collectHandler`, src/main.go lines 186-210) -/

/-- `DeviceInfo` (src/main.go lines 24-89): the flat record of string-valued
telemetry fields. -/
structure DeviceInfo where
  Timestamp : String
  UserAgent : String
  IPAddress : String
  Screen : String
  ColorDepth : String
  Timezone : String
  Language : String
  Platform : String
  CPUCores : String
  DeviceMemory : String
  Connection : String
  TouchSupport : String
  PixelRatio : String
  AvailableScreen : String
  CookiesEnabled : String
  JavaEnabled : String
  DoNotTrack : String
  HardwareConcurrency : String
  Vendor : String
  Product : String
  Battery : String
  OnlineStatus : String
  MaxTouchPoints : String
  PDFViewer : String
  WebGL : String
  Canvas : String
  AudioContext : String
  LocalStorage : String
  SessionStorage : String
  IndexedDB : String
  Geolocation : String
  LocationDetails : String
  Notifications : String
  ServiceWorker : String
  WebRTC : String
  MediaDevices : String
  DeviceOrientation : String
  Vibration : String
  Bluetooth : String
  USB : String
  Clipboard : String
  Share : String
  PaymentRequest : String
  Accelerometer : String
  Gyroscope : String
  Magnetometer : String
  GamepadAPI : String
  VRDisplay : String
  WebAssembly : String
  CSSFeatures : String
  FontList : String
  Plugins : String
  MimeTypes : String
  ViewportSize : String
  DeviceType : String
  OSVersion : String
  BrowserVersion : String
  ReferrerPolicy : String
  HTTPSSupport : String
  CanvasFingerprint : String
  WebGLFingerprint : String
  FontFingerprint : String
deriving Inhabited

/-- Decimal digit character for `0 ≤ k ≤ 9`. -/
def digitChar (k : Nat) : Char := Char.ofNat (48 + k)

/-- Two-digit zero-padded rendering (Go layout elements `01`, `02`, `15`,
`04`, `05`), valid for values below 100. -/
def pad2 (n : Nat) : List Char := [digitChar (n / 10), digitChar (n % 10)]

/-- Four-digit zero-padded rendering (Go layout element `2006`), valid for
values below 10000. -/
def pad4 (n : Nat) : List Char :=
  [digitChar (n / 1000), digitChar (n / 100 % 10), digitChar (n / 10 % 10), digitChar (n % 10)]

/-- Models Go's `time.Time.Format` with layout `2006-01-02 15:04:05`, the
call on line 198 of `collectHandler`. -/
def formatDateTime (y mo d h mi s : Nat) : String :=
  ⟨pad4 y ++ '-' :: pad2 mo ++ '-' :: pad2 d ++ ' ' :: pad2 h ++ ':' :: pad2 mi ++ ':' :: pad2 s⟩

/-- The server-side stamping of a decoded record (lines 198-199):
`info.Timestamp = time.Now().Format(...)`, `info.IPAddress = ip`. -/
def collectFinalize (info : DeviceInfo) (ts ip : String) : DeviceInfo :=
  { info with Timestamp := ts, IPAddress := ip }

/-- The character positions of a `YYYY-MM-DD HH:MM:SS` string that must hold
decimal digits. -/
def tsDigitPositions : List Nat := [0, 1, 2, 3, 5, 6, 8, 9, 11, 12, 14, 15, 17, 18]

/-- Whether a string matches the `YYYY-MM-DD HH:MM:SS` pattern: exactly 19
characters, digits at the digit positions, and the fixed separators
`-`, `-`, space, `:`, `:` in between. -/
def matchesTimestampPattern (str : String) : Bool :=
  let cs := str.toList
  decide (cs.length = 19) &&
  tsDigitPositions.all (fun i => (cs.getD i ' ').isDigit) &&
  decide (cs.getD 4 ' ' = '-') && decide (cs.getD 7 ' ' = '-') &&
  decide (cs.getD 10 ' ' = ' ') &&
  decide (cs.getD 13 ' ' = ':') && decide (cs.getD 16 ' ' = ':')

/-- All fields of a `DeviceInfo` other than the two server-assigned ones
(`Timestamp` and `IPAddress`) agree between `a` and `b`. -/
def unchangedFields (a b : DeviceInfo) : Bool :=
  decide (a.UserAgent = b.UserAgent) &&
  decide (a.Screen = b.Screen) &&
  decide (a.ColorDepth = b.ColorDepth) &&
  decide (a.Timezone = b.Timezone) &&
  decide (a.Language = b.Language) &&
  decide (a.Platform = b.Platform) &&
  decide (a.CPUCores = b.CPUCores) &&
  decide (a.DeviceMemory = b.DeviceMemory) &&
  decide (a.Connection = b.Connection) &&
  decide (a.TouchSupport = b.TouchSupport) &&
  decide (a.PixelRatio = b.PixelRatio) &&
  decide (a.AvailableScreen = b.AvailableScreen) &&
  decide (a.CookiesEnabled = b.CookiesEnabled) &&
  decide (a.JavaEnabled = b.JavaEnabled) &&
  decide (a.DoNotTrack = b.DoNotTrack) &&
  decide (a.HardwareConcurrency = b.HardwareConcurrency) &&
  decide (a.Vendor = b.Vendor) &&
  decide (a.Product = b.Product) &&
  decide (a.Battery = b.Battery) &&
  decide (a.OnlineStatus = b.OnlineStatus) &&
  decide (a.MaxTouchPoints = b.MaxTouchPoints) &&
  decide (a.PDFViewer = b.PDFViewer) &&
  decide (a.WebGL = b.WebGL) &&
  decide (a.Canvas = b.Canvas) &&
  decide (a.AudioContext = b.AudioContext) &&
  decide (a.LocalStorage = b.LocalStorage) &&
  decide (a.SessionStorage = b.SessionStorage) &&
  decide (a.IndexedDB = b.IndexedDB) &&
  decide (a.Geolocation = b.Geolocation) &&
  decide (a.LocationDetails = b.LocationDetails) &&
  decide (a.Notifications = b.Notifications) &&
  decide (a.ServiceWorker = b.ServiceWorker) &&
  decide (a.WebRTC = b.WebRTC) &&
  decide (a.MediaDevices = b.MediaDevices) &&
  decide (a.DeviceOrientation = b.DeviceOrientation) &&
  decide (a.Vibration = b.Vibration) &&
  decide (a.Bluetooth = b.Bluetooth) &&
  decide (a.USB = b.USB) &&
  decide (a.Clipboard = b.Clipboard) &&
  decide (a.Share = b.Share) &&
  decide (a.PaymentRequest = b.PaymentRequest) &&
  decide (a.Accelerometer = b.Accelerometer) &&
  decide (a.Gyroscope = b.Gyroscope) &&
  decide (a.Magnetometer = b.Magnetometer) &&
  decide (a.GamepadAPI = b.GamepadAPI) &&
  decide (a.VRDisplay = b.VRDisplay) &&
  decide (a.WebAssembly = b.WebAssembly) &&
  decide (a.CSSFeatures = b.CSSFeatures) &&
  decide (a.FontList = b.FontList) &&
  decide (a.Plugins = b.Plugins) &&
  decide (a.MimeTypes = b.MimeTypes) &&
  decide (a.ViewportSize = b.ViewportSize) &&
  decide (a.DeviceType = b.DeviceType) &&
  decide (a.OSVersion = b.OSVersion) &&
  decide (a.BrowserVersion = b.BrowserVersion) &&
  decide (a.ReferrerPolicy = b.ReferrerPolicy) &&
  decide (a.HTTPSSupport = b.HTTPSSupport) &&
  decide (a.CanvasFingerprint = b.CanvasFingerprint) &&
  decide (a.WebGLFingerprint = b.WebGLFingerprint) &&
  decide (a.FontFingerprint = b.FontFingerprint)

/-! ## Concrete test inputs used by the witness theorems -/

/-- A limiter state in which every key already holds 30 timestamps at time 0. -/
def rlDen : RateLimiter := fun _ => List.replicate 30 0

/-- A limiter state whose sequences hold one old timestamp (0) followed by
29 newer ones (1). -/
def rlSlide : RateLimiter := fun _ => (0 : Int) :: List.replicate 29 1

/-- Thirty-one identical calls for key "a" at time 0. -/
def calls31 : List (String × Int) := List.replicate 31 ("a", 0)

/-- A request resolved through the `X-Real-IP` header. -/
def testReq : HttpRequest := ⟨"", "203.0.113.5", "10.0.0.1:34567"⟩

/-- A decoded record carrying `userAgent: "test-agent"`. -/
def testInfo : DeviceInfo := { (default : DeviceInfo) with UserAgent := "test-agent" }

/-- A seven-code-unit string whose `hashString` accumulator ends at exactly
`-2^31`. -/
def magicStr : String := "skiqkb㟷"

/-! ## Helper lemmas: rate limiter -/

/-- Closed form of `Allow`. -/
theorem allow_spec (rl : RateLimiter) (ip : String) (now : Int) :
    Allow rl ip now =
      if (prune now (rl ip)).length ≥ 30 then (false, rl)
      else (true, fun k => if k = ip then prune now (rl ip) ++ [now] else rl k) := rfl

theorem allow_deny (rl : RateLimiter) (ip : String) (now : Int)
    (h : 30 ≤ (prune now (rl ip)).length) : Allow rl ip now = (false, rl) := by
  rw [allow_spec, if_pos h]

theorem allow_grant (rl : RateLimiter) (ip : String) (now : Int)
    (h : (prune now (rl ip)).length < 30) :
    (Allow rl ip now).1 = true ∧ (Allow rl ip now).2 ip = prune now (rl ip) ++ [now] := by
  rw [allow_spec, if_neg (by omega)]
  exact ⟨rfl, by simp⟩

theorem allow_snd_ne (rl : RateLimiter) (ip key : String) (now : Int)
    (h : key ≠ ip) : (Allow rl ip now).2 key = rl key := by
  rw [allow_spec]
  split
  · rfl
  · simp [h]

theorem allow_fst_congr (rl₁ rl₂ : RateLimiter) (ip : String) (now : Int)
    (h : rl₁ ip = rl₂ ip) : (Allow rl₁ ip now).1 = (Allow rl₂ ip now).1 := by
  rw [allow_spec, allow_spec, h]
  split <;> rfl

theorem allow_bound (rl : RateLimiter) (ip : String) (now : Int)
    (hb : ∀ key, (rl key).length ≤ 30) :
    ∀ key, ((Allow rl ip now).2 key).length ≤ 30 := by
  intro key
  rw [allow_spec]
  split
  · exact hb key
  · rename_i h
    by_cases hk : key = ip
    · subst hk
      dsimp only
      rw [if_pos rfl]
      simp only [List.length_append, List.length_cons, List.length_nil]
      omega
    · simpa [hk] using hb key

theorem runRL_bound (calls : List (String × Int)) (rl : RateLimiter)
    (hb : ∀ key, (rl key).length ≤ 30) :
    ∀ key, ((runRL rl calls) key).length ≤ 30 := by
  induction calls generalizing rl with
  | nil => exact hb
  | cons c rest ih => exact ih _ (allow_bound rl c.1 c.2 hb)

theorem reachable_bound (rl : RateLimiter) (h : Reachable rl) :
    ∀ key, (rl key).length ≤ 30 := by
  obtain ⟨calls, rfl⟩ := h
  exact runRL_bound calls initLimiter (fun _ => by simp [initLimiter])

theorem runRL_other_key (calls : List (String × Int)) (rl : RateLimiter) (B : String)
    (h : ∀ c ∈ calls, c.1 ≠ B) : (runRL rl calls) B = rl B := by
  induction calls generalizing rl with
  | nil => rfl
  | cons c rest ih =>
    simp only [runRL]
    rw [ih _ (fun d hd => h d (List.mem_cons_of_mem c hd)),
      allow_snd_ne rl c.1 B c.2 (Ne.symm (h c (List.mem_cons_self c rest)))]

theorem prune_length_le (now : Int) (l : List Int) : (prune now l).length ≤ l.length :=
  List.length_filter_le _ l

/-- When the pruned list is still at the cap and the stored list respects the
cap, nothing was actually pruned. -/
theorem prune_eq_of_deny (now : Int) (l : List Int)
    (hle : l.length ≤ 30) (hge : 30 ≤ (prune now l).length) : prune now l = l := by
  unfold prune at hge ⊢
  exact (List.filter_sublist l).eq_of_length
    (by have := List.length_filter_le (fun req => decide (now - req < minuteNs)) l; omega)

/-- Every timestamp stored under the called key right after `Allow` returns
is within the window ending at the call time. -/
theorem allow_post_in_window (rl : RateLimiter) (k : String) (now : Int)
    (h : Reachable rl) : ∀ s ∈ (Allow rl k now).2 k, now - s < minuteNs := by
  have hb := reachable_bound rl h k
  rw [allow_spec]
  split
  · rename_i hge
    intro s hs
    have heq := prune_eq_of_deny now (rl k) hb hge
    have := List.filter_eq_self.mp heq s hs
    simpa using this
  · intro s hs
    dsimp only at hs
    rw [if_pos rfl, List.mem_append] at hs
    rcases hs with hs | hs
    · have := (List.mem_filter.mp hs).2
      simpa using this
    · rw [List.mem_singleton] at hs
      subst hs
      simp only [minuteNs, sub_self]
      omega

theorem admittedInWindow_zero (calls : List (String × Int)) (rl : RateLimiter)
    (k : String) (T : Int) (h : ∀ c ∈ calls, T < c.2) :
    admittedInWindow rl k T calls = 0 := by
  induction calls generalizing rl with
  | nil => rfl
  | cons c rest ih =>
    have hc : ¬(c.1 = k ∧ T - minuteNs < c.2 ∧ c.2 ≤ T ∧ (Allow rl c.1 c.2).1 = true) := by
      rintro ⟨-, -, hle, -⟩
      exact absurd hle (not_le.mpr (h c (List.mem_cons_self c rest)))
    simp only [admittedInWindow]
    rw [if_neg hc, ih _ (fun d hd => h d (List.mem_cons_of_mem c hd))]

/-- Pruning at a time `t ≤ T` removes nothing from the trailing window
ending at `T`. -/
theorem filter_window_prune (l : List Int) (t T : Int) (ht : t ≤ T) :
    List.filter (fun s => decide (T - minuteNs < s) && decide (s ≤ T)) (prune t l)
      = List.filter (fun s => decide (T - minuteNs < s) && decide (s ≤ T)) l := by
  unfold prune
  rw [List.filter_filter]
  apply List.filter_congr
  intro x _
  by_cases h1 : T - minuteNs < x
  · by_cases h2 : x ≤ T
    · have h3 : t - x < minuteNs := by omega
      simp [h1, h2, h3]
    · simp [h2]
  · simp [h1]

theorem filter_window_singleton (t T : Int) :
    (List.filter (fun s => decide (T - minuteNs < s) && decide (s ≤ T)) [t]).length
      = if T - minuteNs < t ∧ t ≤ T then 1 else 0 := by
  by_cases h1 : T - minuteNs < t
  · by_cases h2 : t ≤ T
    · simp [List.filter, h1, h2]
    · simp [List.filter, h1, h2]
  · simp [List.filter, h1]

/-- The key step of the sliding-window bound: one `Allow` call cannot grow
the in-window admission count faster than the in-window stored count. -/
theorem allow_step_count (rl : RateLimiter) (c : String × Int) (k : String) (T : Int)
    (hT : c.2 ≤ T) :
    (if c.1 = k ∧ T - minuteNs < c.2 ∧ c.2 ≤ T ∧ (Allow rl c.1 c.2).1 = true then 1 else 0)
      + inWindowCount T (rl k) ≤ inWindowCount T ((Allow rl c.1 c.2).2 k) := by
  by_cases hd : 30 ≤ (prune c.2 (rl c.1)).length
  · have he := allow_deny rl c.1 c.2 hd
    rw [if_neg (by rintro ⟨-, -, -, hb1⟩; rw [he] at hb1; cases hb1), he]
    simp
  · push_neg at hd
    obtain ⟨hfst, hself⟩ := allow_grant rl c.1 c.2 hd
    by_cases hk : c.1 = k
    · subst hk
      rw [hself]
      unfold inWindowCount
      rw [List.filter_append, List.length_append,
        filter_window_prune (rl c.1) c.2 T hT, filter_window_singleton c.2 T]
      split_ifs with h1 h2
      · omega
      · exact absurd ⟨h1.2.1, h1.2.2.1⟩ h2
      · omega
      · omega
    · rw [allow_snd_ne rl c.1 k c.2 (fun h => hk h.symm),
        if_neg (fun h => hk h.1)]
      simp

theorem admitted_plus_stored_le (calls : List (String × Int)) (rl : RateLimiter)
    (k : String) (T : Int)
    (hmono : List.Pairwise (fun a b : String × Int => a.2 ≤ b.2) calls)
    (hb : ∀ key, (rl key).length ≤ 30) :
    admittedInWindow rl k T calls + inWindowCount T (rl k) ≤ 30 := by
  induction calls generalizing rl with
  | nil =>
    have h1 : inWindowCount T (rl k) ≤ (rl k).length := List.length_filter_le _ _
    have h2 := hb k
    simp only [admittedInWindow]
    omega
  | cons c rest ih =>
    rw [List.pairwise_cons] at hmono
    obtain ⟨hhead, htail⟩ := hmono
    by_cases hT : T < c.2
    · have hz : admittedInWindow (Allow rl c.1 c.2).2 k T rest = 0 :=
        admittedInWindow_zero rest _ k T (fun d hd => lt_of_lt_of_le hT (hhead d hd))
      have h1 : inWindowCount T (rl k) ≤ (rl k).length := List.length_filter_le _ _
      have h2 := hb k
      simp only [admittedInWindow]
      rw [if_neg (by rintro ⟨-, -, hle, -⟩; omega), hz]
      omega
    · push_neg at hT
      have hstep := allow_step_count rl c k T hT
      have ihr := ih (Allow rl c.1 c.2).2 htail (allow_bound rl c.1 c.2 hb)
      simp only [admittedInWindow]
      omega

/-! ## Helper lemmas: 32-bit accumulator -/

theorem toInt32_emod (n : Int) : toInt32 n % 4294967296 = n % 4294967296 := by
  unfold toInt32
  dsimp only
  split <;> omega

theorem toInt32_congr (a b : Int) (h : a % 4294967296 = b % 4294967296) :
    toInt32 a = toInt32 b := by
  unfold toInt32
  dsimp only
  rw [h]

theorem toInt32_range (n : Int) : -2147483648 ≤ toInt32 n ∧ toInt32 n < 2147483648 := by
  unfold toInt32
  dsimp only
  split <;> omega

/-- The two-truncation loop body of the source equals the single-truncation
step `acc = acc*32 - acc + c (mod 2^32)` the specification describes. -/
theorem hashStep_eq (h : Int) (c : Nat) : hashStep h c = toInt32 (h * 32 - h + c) := by
  unfold hashStep
  apply toInt32_congr
  have := toInt32_emod (h * 32)
  omega

theorem hashFinal_range (s : String) :
    -2147483648 ≤ hashFinal s ∧ hashFinal s < 2147483648 := by
  unfold hashFinal
  generalize utf16CodeUnits s = l
  have h0 : -2147483648 ≤ (0 : Int) ∧ (0 : Int) < 2147483648 := by omega
  generalize (0 : Int) = acc at h0 ⊢
  induction l generalizing acc with
  | nil => exact h0
  | cons c rest ih =>
    simp only [List.foldl_cons]
    exact ih _ (toInt32_range _)

/-! ## Helper lemmas: hexadecimal rendering -/

theorem headD_append_of_ne_nil {α : Type} (l m : List α) (d : α) (h : l ≠ []) :
    (l ++ m).headD d = l.headD d := by
  cases l with
  | nil => exact absurd rfl h
  | cons a t => rfl

/-- A lowercase hexadecimal digit character test. -/
def isHexLowerChar (c : Char) : Bool :=
  c.isDigit || (decide ('a' ≤ c) && decide (c ≤ 'f'))

theorem hexDigit_wf (n : Nat) (h : n < 16) : isHexLowerChar (hexDigit n) = true := by
  interval_cases n <;> decide

theorem hexDigit_ne_zero (n : Nat) (h1 : n ≠ 0) (h2 : n < 16) : hexDigit n ≠ '0' := by
  interval_cases n <;> simp_all <;> decide

theorem hexDigitsAux_zero (fuel : Nat) : hexDigitsAux fuel 0 = [] := by
  cases fuel <;> rfl

theorem hexDigitsAux_spec (fuel : Nat) :
    ∀ n, n ≤ fuel → n ≠ 0 →
      (hexDigitsAux fuel n ≠ [] ∧ (hexDigitsAux fuel n).headD '0' ≠ '0') ∧
        ∀ c ∈ hexDigitsAux fuel n, isHexLowerChar c = true := by
  induction fuel with
  | zero => intro n h1 h2; omega
  | succ fuel ih =>
    intro n h1 h2
    simp only [hexDigitsAux]
    rw [if_neg h2]
    by_cases hq : n / 16 = 0
    · rw [hq, hexDigitsAux_zero, List.nil_append]
      have hlt : n < 16 := by omega
      refine ⟨⟨by simp, ?_⟩, ?_⟩
      · have hmod : n % 16 = n := Nat.mod_eq_of_lt hlt
        simpa [hmod] using hexDigit_ne_zero n h2 hlt
      · intro c hc
        rw [List.mem_singleton] at hc
        subst hc
        exact hexDigit_wf _ (Nat.mod_lt n (by omega))
    · have hfuel : n / 16 ≤ fuel := by
        have := Nat.div_lt_self (show 0 < n by omega) (show 1 < 16 by omega)
        omega
      obtain ⟨⟨hne, hhd⟩, hmem⟩ := ih (n / 16) hfuel hq
      refine ⟨⟨by simp [hne], ?_⟩, ?_⟩
      · rwa [headD_append_of_ne_nil _ _ _ hne]
      · intro c hc
        rw [List.mem_append] at hc
        rcases hc with hc | hc
        · exact hmem c hc
        · rw [List.mem_singleton] at hc
          subst hc
          exact hexDigit_wf _ (Nat.mod_lt n (by omega))

theorem hexDigits_spec (n : Nat) (hn : n ≠ 0) :
    (hexDigits n ≠ [] ∧ (hexDigits n).headD '0' ≠ '0') ∧
      ∀ c ∈ hexDigits n, isHexLowerChar c = true :=
  hexDigitsAux_spec n n le_rfl hn

theorem toHexLower_wf (n : Nat) : isLowerHexNoSign (toHexLower n) = true := by
  unfold toHexLower
  by_cases h : n = 0
  · rw [if_pos h]
    decide
  · rw [if_neg h]
    obtain ⟨⟨hne, hhead⟩, hmem⟩ := hexDigits_spec n h
    have htl : (String.mk (hexDigits n)).toList = hexDigits n := rfl
    simp only [isLowerHexNoSign, Bool.and_eq_true, Bool.or_eq_true, decide_eq_true_eq, htl]
    refine ⟨⟨?_, ?_⟩, Or.inr hhead⟩
    · intro hemp
      exact hne (congrArg String.data hemp)
    · rw [List.all_eq_true]
      intro c hc
      simpa [isHexLowerChar] using hmem c hc

/-! ## Helper lemmas: timestamp format -/

theorem digitChar_isDigit (k : Nat) (h : k < 10) : (digitChar k).isDigit = true := by
  interval_cases k <;> decide

theorem formatDateTime_matches (y mo d h mi s : Nat) (hy : y < 10000) (hmo : mo < 100)
    (hd : d < 100) (hh : h < 100) (hmi : mi < 100) (hs : s < 100) :
    matchesTimestampPattern (formatDateTime y mo d h mi s) = true := by
  have e1 := digitChar_isDigit (y / 1000) (by omega)
  have e2 := digitChar_isDigit (y / 100 % 10) (by omega)
  have e3 := digitChar_isDigit (y / 10 % 10) (by omega)
  have e4 := digitChar_isDigit (y % 10) (by omega)
  have e5 := digitChar_isDigit (mo / 10) (by omega)
  have e6 := digitChar_isDigit (mo % 10) (by omega)
  have e7 := digitChar_isDigit (d / 10) (by omega)
  have e8 := digitChar_isDigit (d % 10) (by omega)
  have e9 := digitChar_isDigit (h / 10) (by omega)
  have e10 := digitChar_isDigit (h % 10) (by omega)
  have e11 := digitChar_isDigit (mi / 10) (by omega)
  have e12 := digitChar_isDigit (mi % 10) (by omega)
  have e13 := digitChar_isDigit (s / 10) (by omega)
  have e14 := digitChar_isDigit (s % 10) (by omega)
  simp [matchesTimestampPattern, formatDateTime, pad4, pad2, tsDigitPositions,
    String.toList, List.getD, e1, e2, e3, e4, e5, e6, e7, e8, e9, e10, e11, e12, e13, e14]

theorem matches_ne_empty (str : String) (h : matchesTimestampPattern str = true) :
    str ≠ "" := by
  intro he
  rw [he] at h
  exact absurd h (by decide)

/-! ## Helper lemmas: hash algorithm -/

theorem foldl_hashStep_eq (l : List Nat) (acc : Int) :
    l.foldl hashStep acc = l.foldl (fun a (c : Nat) => toInt32 (a * 32 - a + c)) acc := by
  have he : hashStep = fun a (c : Nat) => toInt32 (a * 32 - a + c) :=
    funext fun a => funext fun c => hashStep_eq a c
  rw [he]

/-! ## Claim theorems -/

/-- C1: For every key, `Allow(key)` (a) discards from that key's stored
sequence all timestamps older than the 60-second window (after the call no
stale timestamp remains stored), (b) returns false without recording
anything when the pruned sequence length is at or above the limit 30, and
(c) otherwise appends the current time to the pruned sequence and returns
true. -/
theorem allow_effect (rl : RateLimiter) (ip : String) (now : Int) (h : Reachable rl) :
    (30 ≤ (prune now (rl ip)).length → Allow rl ip now = (false, rl)) ∧
    ((prune now (rl ip)).length < 30 →
      (Allow rl ip now).1 = true ∧
      (Allow rl ip now).2 ip = prune now (rl ip) ++ [now]) ∧
    (∀ s ∈ (Allow rl ip now).2 ip, now - s < minuteNs) :=
  ⟨allow_deny rl ip now, allow_grant rl ip now, allow_post_in_window rl ip now h⟩

/-- Witness for C1 at the reachable empty state: the first call for a fresh
key is admitted and stores exactly the call time. -/
theorem allow_effect_witness :
    (Allow initLimiter "a" 0).1 = true ∧ (Allow initLimiter "a" 0).2 "a" = [0] := by
  have h := (allow_effect initLimiter "a" 0 ⟨[], rfl⟩).2.1 (by decide)
  exact ⟨h.1, h.2.trans (by decide)⟩

/-- C2: Along any run of calls with non-decreasing times, a key receives at
most 30 admissions inside any trailing 60-second window, and every stored
sequence has length at most 30 after the run. -/
theorem allow_rate_bound (calls : List (String × Int)) (k : String) (T : Int)
    (hmono : List.Pairwise (fun a b : String × Int => a.2 ≤ b.2) calls) :
    admittedInWindow initLimiter k T calls ≤ 30 ∧
      ∀ key, ((runRL initLimiter calls) key).length ≤ 30 := by
  constructor
  · have h := admitted_plus_stored_le calls initLimiter k T hmono
      (fun _ => by simp [initLimiter])
    have h0 : inWindowCount T (initLimiter k) = 0 := rfl
    omega
  · exact runRL_bound calls initLimiter (fun _ => by simp [initLimiter])

/-- Witness for C2: thirty-one simultaneous calls for one key yield at most
30 admissions in the window ending at their time, and the stored sequences
stay within the cap. -/
theorem allow_rate_bound_witness :
    admittedInWindow initLimiter "a" 0 calls31 ≤ 30 ∧
      ((runRL initLimiter calls31) "a").length ≤ 30 := by
  have h := allow_rate_bound calls31 "a" 0 (by decide)
  exact ⟨h.1, h.2 "a"⟩

/-- C4: After any `Allow(key)` call on a reachable state returns — whether
admitted or denied — every timestamp stored for that key is within the
60-second window ending at the call time; no stale entry is left. -/
theorem allow_no_stale (rl : RateLimiter) (k : String) (now : Int) (h : Reachable rl) :
    ((Allow rl k now).2 k).all (fun s => decide (now - s < minuteNs)) = true := by
  rw [List.all_eq_true]
  intro s hs
  exact decide_eq_true (allow_post_in_window rl k now h s hs)

/-- Witness for C4 after two recorded admissions. -/
theorem allow_no_stale_witness :
    ((Allow (runRL initLimiter [("a", 0), ("a", 5)]) "a" 10).2 "a").all
      (fun s => decide (10 - s < minuteNs)) = true :=
  allow_no_stale (runRL initLimiter [("a", 0), ("a", 5)]) "a" 10
    ⟨[("a", 0), ("a", 5)], rfl⟩

/-- C5: A denied `Allow` call records nothing: the request log is returned
exactly as it was. -/
theorem allow_deny_no_side_effect (rl : RateLimiter) (ip : String) (now : Int)
    (h : (Allow rl ip now).1 = false) : (Allow rl ip now).2 = rl := by
  by_cases hd : 30 ≤ (prune now (rl ip)).length
  · rw [allow_deny rl ip now hd]
  · push_neg at hd
    rw [(allow_grant rl ip now hd).1] at h
    cases h

/-- Witness for C5: a full bucket denies and the state is untouched. -/
theorem allow_deny_no_side_effect_witness :
    (Allow rlDen "a" 0).1 = false ∧ (Allow rlDen "a" 0).2 = rlDen :=
  ⟨by decide, allow_deny_no_side_effect rlDen "a" 0 (by decide)⟩

/-- C6: Sliding-window behaviour. A key holding a full window of 30
timestamps is denied; once the current time is at least 60 seconds past the
oldest stored admission (while the 29 newer ones are still in window), the
next call is admitted, and the in-window count after that admission is
again exactly the limit 30, not below it. -/
theorem allow_sliding_window (rl : RateLimiter) (k : String) (told t0 t1 : Int)
    (rest : List Int)
    (hseq : rl k = told :: rest) (hlen : rest.length = 29)
    (hfull : ∀ s ∈ rl k, t0 - s < minuteNs)
    (hexp : minuteNs ≤ t1 - told)
    (hrest : ∀ s ∈ rest, t1 - s < minuteNs) :
    (Allow rl k t0).1 = false ∧
    (Allow rl k t1).1 = true ∧
    (Allow rl k t1).2 k = rest ++ [t1] ∧
    (prune t1 ((Allow rl k t1).2 k)).length = 30 := by
  have hp0 : prune t0 (rl k) = rl k :=
    List.filter_eq_self.mpr (fun a ha => decide_eq_true (hfull a ha))
  have hlen0 : 30 ≤ (prune t0 (rl k)).length := by
    rw [hp0, hseq]
    simp [hlen]
  have hfalse : (Allow rl k t0).1 = false := by
    rw [allow_deny rl k t0 hlen0]
  have hp1 : prune t1 (rl k) = rest := by
    rw [hseq]
    unfold prune
    rw [List.filter_cons]
    have hptold : decide (t1 - told < minuteNs) = false := by
      simp only [decide_eq_false_iff_not, not_lt]
      omega
    rw [hptold]
    simp only [Bool.false_eq_true, if_false]
    exact List.filter_eq_self.mpr (fun a ha => decide_eq_true (hrest a ha))
  have hlt : (prune t1 (rl k)).length < 30 := by
    rw [hp1, hlen]
    omega
  obtain ⟨htrue, hstore⟩ := allow_grant rl k t1 hlt
  have hstore' : (Allow rl k t1).2 k = rest ++ [t1] := by rw [hstore, hp1]
  have hfinal : prune t1 (rest ++ [t1]) = rest ++ [t1] := by
    apply List.filter_eq_self.mpr
    intro a ha
    rw [List.mem_append, List.mem_singleton] at ha
    rcases ha with ha | ha
    · exact decide_eq_true (hrest a ha)
    · refine decide_eq_true ?_
      rw [ha]
      unfold minuteNs
      omega
  refine ⟨hfalse, htrue, hstore', ?_⟩
  rw [hstore', hfinal]
  simp [hlen]

/-- Witness for C6: one timestamp at 0 and twenty-nine at 1; denied at time
1, admitted again at exactly one minute, with the in-window count back at
the limit. -/
theorem allow_sliding_window_witness :
    (Allow rlSlide "a" 1).1 = false ∧
    (Allow rlSlide "a" 60000000000).1 = true ∧
    (Allow rlSlide "a" 60000000000).2 "a" = List.replicate 29 1 ++ [60000000000] ∧
    (prune 60000000000 ((Allow rlSlide "a" 60000000000).2 "a")).length = 30 :=
  allow_sliding_window rlSlide "a" 0 1 60000000000 (List.replicate 29 1)
    rfl (by decide) (by decide) (by decide) (by decide)

/-- C7: Distinct keys are independent: a sequence of calls that never uses
key `B` leaves `B`'s stored sequence unchanged and does not change the
decision of a subsequent `Allow(B)` call. -/
theorem allow_key_independent (rl : RateLimiter) (A B : String) (hAB : A ≠ B)
    (calls : List (String × Int)) (hcalls : ∀ c ∈ calls, c.1 = A) (t : Int) :
    (runRL rl calls) B = rl B ∧
    (Allow (runRL rl calls) B t).1 = (Allow rl B t).1 := by
  have hne : ∀ c ∈ calls, c.1 ≠ B := fun c hc => (hcalls c hc) ▸ hAB
  have hstate := runRL_other_key calls rl B hne
  exact ⟨hstate, allow_fst_congr _ _ B t hstate⟩

/-- Witness for C7: exhausting key "a" with 31 calls leaves key "b"
untouched and does not change the decision for "b". -/
theorem allow_key_independent_witness :
    (runRL initLimiter calls31) "b" = initLimiter "b" ∧
    (Allow (runRL initLimiter calls31) "b" 0).1 = (Allow initLimiter "b" 0).1 :=
  allow_key_independent initLimiter "a" "b" (by decide) calls31 (by decide) 0

/-- C3: `hashString` implements exactly the specified reduction: iterate the
input's character codes in order, update a 32-bit signed accumulator by
`acc = (acc << 5) - acc + c` with two's-complement 32-bit truncation after
each step, and output the absolute value in lowercase hexadecimal with no
leading zeros and no sign; the empty input gives the sentinel `"0"`. -/
theorem reduce_matches_spec (s : String) :
    hashString s = reduceSpec s ∧
    isLowerHexNoSign (hashString s) = true ∧
    (s = "" → hashString s = "0") := by
  refine ⟨?_, ?_, ?_⟩
  · simp only [hashString, reduceSpec, hashFinal]
    by_cases h : utf16CodeUnits s = []
    · rw [if_pos h, if_pos h]
    · rw [if_neg h, if_neg h, foldl_hashStep_eq]
  · simp only [hashString]
    by_cases h : utf16CodeUnits s = []
    · rw [if_pos h]
      decide
    · rw [if_neg h]
      exact toHexLower_wf _
  · intro he
    subst he
    decide

/-- Witness for C3 at the empty string and at `"hello"`. -/
theorem reduce_matches_spec_witness :
    hashString "" = "0" ∧ hashString "hello" = reduceSpec "hello" :=
  ⟨(reduce_matches_spec "").2.2 rfl, (reduce_matches_spec "hello").1⟩

/-- Sanity: the digest of `"hello"` is the classic 31-based hash value
`99162322 = 0x5e918d2`. -/
theorem hashString_hello : hashString "hello" = "5e918d2" := by decide

/-- C8: the resolved client key prefers the first comma-separated entry of
a non-empty `X-Forwarded-For`, then a non-empty `X-Real-IP`, and otherwise
the peer address with its port stripped — the raw peer address when it
cannot be split into host and port. -/
theorem getClientIP_precedence (r : HttpRequest) :
    (r.xForwardedFor ≠ "" →
      getClientIP r = ⟨(splitChar ',' r.xForwardedFor.toList).headD []⟩) ∧
    (r.xForwardedFor = "" → r.xRealIP ≠ "" → getClientIP r = r.xRealIP) ∧
    (r.xForwardedFor = "" → r.xRealIP = "" →
      (∀ hp, splitHostPort r.remoteAddr = some hp → getClientIP r = hp.1) ∧
      (splitHostPort r.remoteAddr = none → getClientIP r = r.remoteAddr)) := by
  refine ⟨?_, ?_, ?_⟩
  · intro h
    rw [getClientIP, if_pos h]
  · intro h1 h2
    rw [getClientIP, if_neg (not_not_intro h1), if_pos h2]
  · intro h1 h2
    constructor
    · intro hp hsp
      rw [getClientIP, if_neg (not_not_intro h1), if_neg (not_not_intro h2), hsp]
    · intro hsp
      rw [getClientIP, if_neg (not_not_intro h1), if_neg (not_not_intro h2), hsp]

/-- Witness for C8, one request per branch of the precedence. -/
theorem getClientIP_precedence_witness :
    getClientIP ⟨"203.0.113.5, 10.0.0.1", "", "192.0.2.9:443"⟩ = "203.0.113.5" ∧
    getClientIP ⟨"", "198.51.100.7", "192.0.2.9:443"⟩ = "198.51.100.7" ∧
    getClientIP ⟨"", "", "192.0.2.9:443"⟩ = "192.0.2.9" ∧
    getClientIP ⟨"", "", "badaddr"⟩ = "badaddr" := by
  refine ⟨?_, ?_, ?_, ?_⟩
  · exact ((getClientIP_precedence _).1 (by decide)).trans (by decide)
  · exact ((getClientIP_precedence _).2.1 rfl (by decide)).trans (by decide)
  · exact (((getClientIP_precedence _).2.2 rfl rfl).1 ("192.0.2.9", "443")
      (by decide)).trans (by decide)
  · exact ((getClientIP_precedence _).2.2 rfl rfl).2 (by decide)

/-- C9: an admitted, successfully decoded record is returned with a
server-assigned timestamp in `YYYY-MM-DD HH:MM:SS` form, its client
identifier overwritten with the resolved key, and every other field
unchanged. -/
theorem collect_record_fields (info : DeviceInfo) (ip : String) (y mo d h mi s : Nat)
    (hy : y < 10000) (hmo : mo < 100) (hd : d < 100) (hh : h < 100)
    (hmi : mi < 100) (hs : s < 100) :
    matchesTimestampPattern
        (collectFinalize info (formatDateTime y mo d h mi s) ip).Timestamp = true ∧
    (collectFinalize info (formatDateTime y mo d h mi s) ip).Timestamp ≠ "" ∧
    (collectFinalize info (formatDateTime y mo d h mi s) ip).IPAddress = ip ∧
    unchangedFields (collectFinalize info (formatDateTime y mo d h mi s) ip) info = true := by
  have hpat := formatDateTime_matches y mo d h mi s hy hmo hd hh hmi hs
  refine ⟨hpat, matches_ne_empty _ hpat, rfl, ?_⟩
  simp [unchangedFields, collectFinalize]

/-- Witness for C9: a record with `userAgent: "test-agent"` submitted from
the resolved identifier `203.0.113.5` comes back with the identifier
overwritten, the user agent unchanged and a pattern-conforming timestamp. -/
theorem collect_record_fields_witness :
    matchesTimestampPattern
        (collectFinalize testInfo (formatDateTime 2026 10 11 12 0 0)
          (getClientIP testReq)).Timestamp = true ∧
    (collectFinalize testInfo (formatDateTime 2026 10 11 12 0 0)
        (getClientIP testReq)).IPAddress = "203.0.113.5" ∧
    (collectFinalize testInfo (formatDateTime 2026 10 11 12 0 0)
        (getClientIP testReq)).UserAgent = "test-agent" :=
  ⟨(collect_record_fields testInfo (getClientIP testReq) 2026 10 11 12 0 0
      (by decide) (by decide) (by decide) (by decide) (by decide) (by decide)).1,
   ((collect_record_fields testInfo (getClientIP testReq) 2026 10 11 12 0 0
      (by decide) (by decide) (by decide) (by decide) (by decide) (by decide)).2.2.1).trans
      (by decide),
   by decide⟩

/-- C10: the digest's numeric value always lies in `[0, 2^31]`, and the
absolute value is taken in unbounded arithmetic: when the 32-bit
accumulator ends at `-2^31` the digest is `"80000000"`, not a wrapped
negative value. -/
theorem reduce_digest_range (s : String) :
    (hashFinal s).natAbs ≤ 2147483648 ∧
    (hashFinal s = -2147483648 → hashString s = "80000000") := by
  obtain ⟨h1, h2⟩ := hashFinal_range s
  refine ⟨by omega, ?_⟩
  intro heq
  have hne : utf16CodeUnits s ≠ [] := by
    intro hnil
    rw [hashFinal, hnil] at heq
    simp at heq
  unfold hashString
  rw [if_neg hne, heq]
  decide

/-- Witness for C10: a concrete seven-code-unit string drives the
accumulator to exactly `-2^31`, and its digest is `"80000000"`. -/
theorem reduce_digest_range_witness :
    hashFinal magicStr = -2147483648 ∧ hashString magicStr = "80000000" :=
  ⟨by decide, (reduce_digest_range magicStr).2 (by decide)⟩

end DeviceCollector
